import Mathlib

/-!
Verification of the `batch_import_movies` ETL pipeline (src/batch.py).

The pipeline reads a normalized sequence of movie records, filters out
inadmissible records (missing title, imdb_id or release date), bulk-inserts
the admissible movie tuples with conflict-skip on `imdb_id`, resolves five
entity categories (genres, companies, countries, languages, keywords) to
integer identifiers via read-then-insert with conflict-skip on the unique
natural column, rebuilds (movie id, entity id) relationship edges from the
records, filters them against the set of valid movie ids, and bulk-inserts
them into five join tables with conflict-skip on the full row.

The database is modelled as explicit state: the movie table is a list of
rows (insert order), each reference table is a list of (id, value) rows
together with the next value of its id sequence, and each join table is a
list of (movie id, entity id) pairs.  External storage failures are modelled
by explicit failure flags: each `except` handler in the source rolls the
transaction back (state unchanged) and returns the documented fallback.
-/

namespace VizDataPrep

/-- One row of the normalized input handed to the pipeline loop
(`df.to_dict(orient="records")` in src/batch.py).  Missing values
(`None`/`NaN` after normalization) are `none`.  The release date and the
numeric payload columns are never computed with, only copied, so they are
modelled as `Option Nat` / `Int`. -/
structure MovieRecord where
  id : Nat
  title : Option String
  vote_average : Int
  vote_count : Int
  status : Option String
  release_date : Option Nat
  revenue : Int
  runtime : Int
  adult : Bool
  budget : Int
  imdb_id : Option String
  original_language : Option String
  original_title : Option String
  overview : Option String
  popularity : Int
  tagline : Option String
  genres : Option String
  production_companies : Option String
  production_countries : Option String
  spoken_languages : Option String
  keywords : Option String
deriving DecidableEq

/-- One row of the `movies` table: the 16-column tuple built at
src/batch.py lines 162-181. -/
structure MovieRow where
  id : Nat
  title : Option String
  vote_average : Int
  vote_count : Int
  status : Option String
  release_date : Option Nat
  revenue : Int
  runtime : Int
  adult : Bool
  budget : Int
  imdb_id : Option String
  original_language : Option String
  original_title : Option String
  overview : Option String
  popularity : Int
  tagline : Option String
deriving DecidableEq

/-- The movie tuple appended for an admissible record (lines 162-181). -/
def toMovieRow (m : MovieRecord) : MovieRow :=
  { id := m.id, title := m.title, vote_average := m.vote_average
    vote_count := m.vote_count, status := m.status
    release_date := m.release_date, revenue := m.revenue
    runtime := m.runtime, adult := m.adult, budget := m.budget
    imdb_id := m.imdb_id, original_language := m.original_language
    original_title := m.original_title, overview := m.overview
    popularity := m.popularity, tagline := m.tagline }

/-- Python truthiness of an optional string as used by
`not movie["title"]` / `not movie["imdb_id"]`: `None` and `""` are falsy. -/
def falsyStr : Option String → Bool
  | none => true
  | some s => s = ""

/-- Python truthiness of the (normalized) release date: only a missing
date is falsy.  (Records with a missing date are in fact already removed
by the normalizer's recency filter, line 26.) -/
def falsyDate : Option Nat → Bool
  | none => true
  | some _ => false

/-- The admissibility gate at line 158:
`if not movie["title"] or not movie["imdb_id"] or not movie["release_date"]: continue`. -/
def admissible (m : MovieRecord) : Bool :=
  !falsyStr m.title && !falsyStr m.imdb_id && !falsyDate m.release_date

/-- Python `str.split(",")` over the character list: split at every
delimiter, keeping empty pieces (`"a,".split(",") == ["a", ""]`,
`"".split(",") == [""]`). -/
def splitComma : List Char → List (List Char)
  | [] => [[]]
  | c :: cs =>
    if c = ',' then [] :: splitComma cs
    else
      match splitComma cs with
      | [] => [[c]]
      | p :: ps => (c :: p) :: ps

/-- The whitespace characters removed by Python `str.strip()` (for the
ASCII range of this data). -/
def isStripped (c : Char) : Bool :=
  c == ' ' || c == '\t' || c == '\n' || c == '\r' || c == '\x0b' || c == '\x0c'

/-- Python `str.strip()`: drop leading and trailing whitespace. -/
def stripChars (l : List Char) : List Char :=
  ((l.dropWhile isStripped).reverse.dropWhile isStripped).reverse

/-- The entity mentions of one delimited field: `field.split(",")` with
`.strip()` applied to each piece (lines 184-204).  A missing field
(`pd.notna` false) contributes nothing.  Note that empty pieces are kept. -/
def mentions : Option String → List String
  | none => []
  | some s => (splitComma s.data).map fun cs => (stripChars cs).asString

/-- Add one value to an accumulator set (Python `set.update`); modelled as
a duplicate-free list in insertion order. -/
def setInsert (s : List String) (v : String) : List String :=
  if v ∈ s then s else s ++ [v]

/-- `set.update(iterable)`. -/
def setUpdate (s : List String) (vs : List String) : List String :=
  vs.foldl setInsert s

/-- The state accumulated by the first record loop (lines 142-204): the
prepared movie tuples and the five per-category entity sets. -/
structure Prepared where
  movies : List MovieRow
  genres : List String
  companies : List String
  countries : List String
  languages : List String
  keywords : List String
deriving DecidableEq

def emptyPrepared : Prepared :=
  { movies := [], genres := [], companies := [], countries := []
    languages := [], keywords := [] }

/-- One iteration of the first record loop (lines 157-204): inadmissible
records are skipped (`continue`) before both the movie tuple and the
entity collection. -/
def prepareStep (acc : Prepared) (m : MovieRecord) : Prepared :=
  if admissible m then
    { movies := acc.movies ++ [toMovieRow m]
      genres := setUpdate acc.genres (mentions m.genres)
      companies := setUpdate acc.companies (mentions m.production_companies)
      countries := setUpdate acc.countries (mentions m.production_countries)
      languages := setUpdate acc.languages (mentions m.spoken_languages)
      keywords := setUpdate acc.keywords (mentions m.keywords) }
  else acc

/-- The whole first record loop. -/
def preparePass (recs : List MovieRecord) : Prepared :=
  recs.foldl prepareStep emptyPrepared

/-! ### The movie table and `batch_insert_movies` (lines 84-111) -/

/-- Whether two `imdb_id` column values conflict under the unique
constraint named by `ON CONFLICT (imdb_id)`: SQL `NULL`s never conflict. -/
def imdbConflict : Option String → Option String → Bool
  | some a, some b => a == b
  | _, _ => false

/-- Whether a row's `imdb_id` conflicts with some row of the table. -/
def imdbMem (r : MovieRow) (tbl : List MovieRow) : Bool :=
  tbl.any fun q => imdbConflict r.imdb_id q.imdb_id

/-- Whether a row's primary key `id` is already taken in the table. -/
def idMem (r : MovieRow) (tbl : List MovieRow) : Bool :=
  tbl.any fun q => q.id == r.id

/-- Sequential effect of the bulk `INSERT INTO movies ... ON CONFLICT
(imdb_id) DO NOTHING` (lines 91-101): a row conflicting on the arbiter
column `imdb_id` is skipped; a row that instead collides on the primary
key raises a uniqueness error, which aborts the whole statement
(`none`). -/
def insertMoviesFold (tbl : List MovieRow) : List MovieRow → Option (List MovieRow)
  | [] => some tbl
  | r :: rs =>
    if imdbMem r tbl then insertMoviesFold tbl rs
    else if idMem r tbl then none
    else insertMoviesFold (tbl ++ [r]) rs

/-- `batch_insert_movies` (lines 84-111): on success commit and return a
fresh read of every id in the `movies` table (line 105); on any failure
(an external storage failure, flag `fail`, or the uniqueness error above)
roll the whole batch back and return the empty set (lines 108-111). -/
def batch_insert_movies (tbl : List MovieRow) (rows : List MovieRow)
    (fail : Bool) : List MovieRow × List Nat :=
  if fail then (tbl, [])
  else
    match insertMoviesFold tbl rows with
    | some tbl2 => (tbl2, tbl2.map (·.id))
    | none => (tbl, [])

/-! ### Reference tables and `batch_insert_data` (lines 46-82) -/

/-- A reference table (`genres`, `companies`, `countries`, `languages`,
`keywords`): rows `(id, value)` in insert order with a unique constraint
on the value column, plus the next value of the id sequence. -/
structure RefTable where
  rows : List (Nat × String)
  nextId : Nat
deriving DecidableEq

/-- Whether a value is already present in the unique column. -/
def refHas (t : RefTable) (v : String) : Bool :=
  t.rows.any fun p => p.2 == v

/-- Sequential effect of the bulk `INSERT ... ON CONFLICT ({unique_column})
DO NOTHING RETURNING id, {unique_column}` (lines 65-73): conflicting values
are skipped and not returned; inserted values get fresh sequence ids and
are returned. -/
def insertRefFold (t : RefTable) : List String → RefTable × List (Nat × String)
  | [] => (t, [])
  | v :: vs =>
    if refHas t v then insertRefFold t vs
    else
      let res := insertRefFold ⟨t.rows ++ [(t.nextId, v)], t.nextId + 1⟩ vs
      (res.1, (t.nextId, v) :: res.2)

/-- Where a run of `batch_insert_data` fails, if anywhere: `atRead` is a
failure of the initial `SELECT id, {unique_column}` (line 58), `atInsert`
a failure of the bulk insert (lines 71-74). -/
inductive ResolveMode
  | ok
  | atRead
  | atInsert
deriving DecidableEq

/-- The mapping seeded from the table read at lines 58-60:
`id_mapping[row[1]] = row[0]`. -/
def seedMapping (t : RefTable) : List (String × Nat) :=
  t.rows.map fun p => (p.2, p.1)

/-- The input values not yet mapped (line 63):
`new_values = [(value,) for value in data if value not in id_mapping]`. -/
def newValuesOf (t : RefTable) (data : List String) : List String :=
  data.filter fun v => ((seedMapping t).lookup v).isNone

/-- The pagination performed by `psycopg2.extras.execute_values`
(`page_size=batch_size` at lines 71-73): the argument list is cut into
successive chunks of at most `ps` values, one SQL statement per chunk.
The fuel argument is the list length (each step consumes at least one
element when `ps ≥ 1`, as in every call of the source). -/
def paginateAux (ps : Nat) : Nat → List String → List (List String)
  | _, [] => []
  | 0, l => [l]
  | fuel + 1, l => l.take ps :: paginateAux ps fuel (l.drop ps)

/-- The pages `execute_values` executes for an argument list. -/
def paginate (ps : Nat) (l : List String) : List (List String) :=
  paginateAux ps l.length l

/-- The effect of `execute_values` over the pages followed by
`cursor.fetchall()` (lines 71-75): every page is inserted, but since
`execute_values` is not called with `fetch=True`, the cursor afterwards
holds only the rows returned by the LAST page's statement, so `fetchall`
yields only the last page's inserted rows. -/
def insertPages (t : RefTable) :
    List (List String) → RefTable × List (Nat × String)
  | [] => (t, [])
  | [pg] => insertRefFold t pg
  | pg :: pgs => insertPages (insertRefFold t pg).1 pgs

/-- `batch_insert_data` (lines 46-82): read the existing `(id, value)`
pairs, insert the input values not yet mapped (paged by `batch_size`),
merge the pairs returned by `fetchall` — only the last page's.
Any exception is caught (lines 78-82): the transaction rolls back and the
mapping accumulated so far is returned — empty for a read failure, the
seeded mapping for an insert failure. -/
def batch_insert_data (t : RefTable) (data : List String)
    (mode : ResolveMode) (batchSize : Nat) :
    RefTable × List (String × Nat) :=
  match mode with
  | .atRead => (t, [])
  | .atInsert => (t, seedMapping t)
  | .ok =>
    ((insertPages t (paginate batchSize (newValuesOf t data))).1,
      seedMapping t ++
        (insertPages t (paginate batchSize (newValuesOf t data))).2.map
          fun p => (p.2, p.1))

/-! ### Join tables and `batch_insert_relationships` (lines 113-140) -/

/-- One `execute_values` row of `INSERT INTO {table} ... ON CONFLICT DO
NOTHING` on a join table: the composite uniqueness constraint on
(movie id, entity id) skips duplicates. -/
def pairInsert (tbl : List (Nat × Nat)) (e : Nat × Nat) : List (Nat × Nat) :=
  if e ∈ tbl then tbl else tbl ++ [e]

/-- `batch_insert_relationships` (lines 113-140): filter the edges to
those whose movie id is in `valid_movie_ids` (line 127), bulk-insert with
conflict-skip; any failure rolls the category back (lines 138-140). -/
def batch_insert_relationships (tbl : List (Nat × Nat))
    (rels : List (Nat × Nat)) (valid : List Nat) (fail : Bool) :
    List (Nat × Nat) :=
  if fail then tbl
  else (rels.filter fun r => r.1 ∈ valid).foldl pairInsert tbl

/-! ### The relationship-building pass (lines 217-249) -/

/-- The edges one record contributes for one category:
`(movie["id"], ids[g.strip()]) for g in field.split(",") if g.strip() in ids`.
Note there is no admissibility check in this pass. -/
def buildRelsRecord (mapping : List (String × Nat)) (field : Option String)
    (mid : Nat) : List (Nat × Nat) :=
  (mentions field).filterMap fun g => (mapping.lookup g).map fun i => (mid, i)

/-- One category's full edge list, over every record of the input. -/
def buildRels (recs : List MovieRecord) (f : MovieRecord → Option String)
    (mapping : List (String × Nat)) : List (Nat × Nat) :=
  recs.foldl (fun acc m => acc ++ buildRelsRecord mapping (f m) m.id) []

/-! ### The database and the whole pipeline -/

/-- The full store: the movie table, the five reference tables and the
five join tables. -/
structure DB where
  movies : List MovieRow
  genres : RefTable
  companies : RefTable
  countries : RefTable
  languages : RefTable
  keywords : RefTable
  movieGenres : List (Nat × Nat)
  movieCompanies : List (Nat × Nat)
  movieCountries : List (Nat × Nat)
  movieLanguages : List (Nat × Nat)
  movieKeywords : List (Nat × Nat)
deriving DecidableEq

/-- The initially empty store (id sequences start at 1). -/
def emptyDB : DB :=
  { movies := []
    genres := ⟨[], 1⟩, companies := ⟨[], 1⟩, countries := ⟨[], 1⟩
    languages := ⟨[], 1⟩, keywords := ⟨[], 1⟩
    movieGenres := [], movieCompanies := [], movieCountries := []
    movieLanguages := [], movieKeywords := [] }

/-- Which storage operations of a run fail with an external exception. -/
structure FailFlags where
  movies : Bool
  genres : ResolveMode
  companies : ResolveMode
  countries : ResolveMode
  languages : ResolveMode
  keywords : ResolveMode
  relGenres : Bool
  relCompanies : Bool
  relCountries : Bool
  relLanguages : Bool
  relKeywords : Bool
deriving DecidableEq

/-- A run with no external storage failure. -/
def okFlags : FailFlags :=
  { movies := false
    genres := .ok, companies := .ok, countries := .ok
    languages := .ok, keywords := .ok
    relGenres := false, relCompanies := false, relCountries := false
    relLanguages := false, relKeywords := false }

/-- The whole pipeline body of `batch_import_movies` (lines 142-282):
prepare movies and entity sets, upsert movies (line 207), resolve the five
categories (lines 210-214), rebuild the edges (lines 217-249) and persist
them gated on the valid movie ids (lines 252-282). -/
def batch_import_movies (db : DB) (recs : List MovieRecord)
    (fl : FailFlags) (batchSize : Nat) : DB :=
  let p := preparePass recs
  let mres := batch_insert_movies db.movies p.movies fl.movies
  let g := batch_insert_data db.genres p.genres fl.genres batchSize
  let c := batch_insert_data db.companies p.companies fl.companies batchSize
  let n := batch_insert_data db.countries p.countries fl.countries batchSize
  let l := batch_insert_data db.languages p.languages fl.languages batchSize
  let k := batch_insert_data db.keywords p.keywords fl.keywords batchSize
  { movies := mres.1
    genres := g.1, companies := c.1, countries := n.1
    languages := l.1, keywords := k.1
    movieGenres := batch_insert_relationships db.movieGenres
      (buildRels recs (·.genres) g.2) mres.2 fl.relGenres
    movieCompanies := batch_insert_relationships db.movieCompanies
      (buildRels recs (·.production_companies) c.2) mres.2 fl.relCompanies
    movieCountries := batch_insert_relationships db.movieCountries
      (buildRels recs (·.production_countries) n.2) mres.2 fl.relCountries
    movieLanguages := batch_insert_relationships db.movieLanguages
      (buildRels recs (·.spoken_languages) l.2) mres.2 fl.relLanguages
    movieKeywords := batch_insert_relationships db.movieKeywords
      (buildRels recs (·.keywords) k.2) mres.2 fl.relKeywords }

/-- The default batch size of `batch_import_movies` (line 8), used by the
`__main__` entry point (line 304). -/
def defaultBatchSize : Nat := 1000

/-! ### Concrete sample data used to instantiate the theorems -/

/-- A representative admissible input record. -/
def sampleRecord : MovieRecord :=
  { id := 1, title := some "T", vote_average := 7, vote_count := 10
    status := some "Released", release_date := some 19000, revenue := 2
    runtime := 120, adult := false, budget := 1, imdb_id := some "tt1"
    original_language := some "en", original_title := some "T"
    overview := some "o", popularity := 3, tagline := some "t"
    genres := some "Action, Drama", production_companies := some "ACME"
    production_countries := some "US", spoken_languages := some "en"
    keywords := some "war" }

/-- The movie row of `sampleRecord`. -/
def sampleRow : MovieRow := toMovieRow sampleRecord

/-- An admissible record whose genre field ends in a delimiter, so that
splitting yields an empty piece. -/
def recTrailing : MovieRecord :=
  { sampleRecord with id := 2, imdb_id := some "tt2"
                      genres := some "Action," }

/-- An inadmissible record (missing title) that still carries entity
mentions. -/
def recInadmissible : MovieRecord :=
  { sampleRecord with id := 3, title := none, genres := some "Drama" }

/-- An admissible record mentioning only the genre `"Action"`. -/
def recGenreA : MovieRecord :=
  { sampleRecord with id := 1, imdb_id := some "tt1"
                      genres := some "Action" }

/-- An admissible record mentioning only the genre `"Drama"`. -/
def recGenreB : MovieRecord :=
  { sampleRecord with id := 2, imdb_id := some "tt2"
                      genres := some "Drama" }

/-- A run in which only the movie bulk insert fails. -/
def failMoviesFlags : FailFlags := { okFlags with movies := true }

/-- A run in which only the companies category read fails. -/
def failCompaniesFlags : FailFlags := { okFlags with companies := .atRead }

/-- A movie row already present in the store before a run (id 7). -/
def oldRow : MovieRow := { sampleRow with id := 7, imdb_id := some "tt7" }

/-- A store that already contains movie 7 and the genre `"Drama"`. -/
def seededDB : DB :=
  { emptyDB with movies := [oldRow], genres := ⟨[(5, "Drama")], 6⟩ }

/-- An inadmissible record whose movie id is already valid in `seededDB`
and whose genre mention is already resolvable there. -/
def recInadmissibleOld : MovieRecord :=
  { sampleRecord with id := 7, title := none, genres := some "Drama" }

/-! ### Helper lemmas -/

theorem mem_setInsert (s : List String) (u v : String) :
    v ∈ setInsert s u ↔ v ∈ s ∨ v = u := by
  unfold setInsert
  by_cases h : u ∈ s
  · simp only [if_pos h]
    constructor
    · exact Or.inl
    · rintro (hv | rfl)
      · exact hv
      · exact h
  · simp [if_neg h]

theorem mem_setUpdate (vs : List String) (s : List String) (v : String) :
    v ∈ setUpdate s vs ↔ v ∈ s ∨ v ∈ vs := by
  induction vs generalizing s with
  | nil => simp [setUpdate]
  | cons u us ih =>
    simp only [setUpdate, List.foldl_cons] at *
    rw [ih (setInsert s u), mem_setInsert]
    constructor
    · rintro ((hs | rfl) | hu)
      · exact Or.inl hs
      · exact Or.inr (List.mem_cons_self _ _)
      · exact Or.inr (List.mem_cons_of_mem _ hu)
    · rintro (hs | hc)
      · exact Or.inl (Or.inl hs)
      · rcases List.mem_cons.mp hc with rfl | hu
        · exact Or.inl (Or.inr rfl)
        · exact Or.inr hu

theorem mem_of_mem_foldl_pairInsert_init (es : List (Nat × Nat))
    (tbl : List (Nat × Nat)) (e : Nat × Nat) (h : e ∈ tbl) :
    e ∈ es.foldl pairInsert tbl := by
  induction es generalizing tbl with
  | nil => exact h
  | cons u us ih =>
    simp only [List.foldl_cons]
    refine ih (pairInsert tbl u) ?_
    by_cases hu : u ∈ tbl
    · simpa [pairInsert, if_pos hu]
    · simp [pairInsert, if_neg hu, List.mem_append, h]

theorem mem_foldl_pairInsert (es : List (Nat × Nat))
    (tbl : List (Nat × Nat)) (e : Nat × Nat) (h : e ∈ es) :
    e ∈ es.foldl pairInsert tbl := by
  induction es generalizing tbl with
  | nil => cases h
  | cons u us ih =>
    simp only [List.foldl_cons]
    rcases List.mem_cons.mp h with rfl | hu
    · refine mem_of_mem_foldl_pairInsert_init _ _ _ ?_
      by_cases he : e ∈ tbl
      · simpa [pairInsert, if_pos he]
      · simp [pairInsert, if_neg he]
    · exact ih (pairInsert tbl u) hu

theorem foldl_pairInsert_of_subset (es : List (Nat × Nat))
    (tbl : List (Nat × Nat)) (h : ∀ e ∈ es, e ∈ tbl) :
    es.foldl pairInsert tbl = tbl := by
  induction es with
  | nil => rfl
  | cons u us ih =>
    have hu : u ∈ tbl := h u (List.mem_cons_self _ _)
    simp only [List.foldl_cons, pairInsert, if_pos hu]
    exact ih fun e he => h e (List.mem_cons_of_mem _ he)

theorem lookup_append (l1 l2 : List (String × Nat)) (k : String) :
    (l1 ++ l2).lookup k =
      match l1.lookup k with
      | some v => some v
      | none => l2.lookup k := by
  induction l1 with
  | nil => simp [List.lookup]
  | cons p ps ih =>
    rcases p with ⟨a, b⟩
    simp only [List.cons_append, List.lookup]
    by_cases h : (k == a) = true
    · simp [h]
    · simp only [Bool.not_eq_true] at h
      simp [h, ih]

theorem imdbMem_append (r : MovieRow) (t1 t2 : List MovieRow) :
    imdbMem r (t1 ++ t2) = (imdbMem r t1 || imdbMem r t2) := by
  simp [imdbMem, List.any_append]

theorem insertMoviesFold_append (rows : List MovieRow)
    (tbl tbl2 : List MovieRow) (h : insertMoviesFold tbl rows = some tbl2) :
    ∃ new, tbl2 = tbl ++ new ∧
      ∀ r ∈ new, r ∈ rows ∧ imdbMem r tbl = false := by
  induction rows generalizing tbl with
  | nil =>
    refine ⟨[], ?_, by simp⟩
    simpa [insertMoviesFold] using h.symm
  | cons r rs ih =>
    simp only [insertMoviesFold] at h
    by_cases h1 : imdbMem r tbl = true
    · rw [if_pos h1] at h
      obtain ⟨new, hnew, hmem⟩ := ih tbl h
      exact ⟨new, hnew, fun q hq =>
        ⟨List.mem_cons_of_mem _ (hmem q hq).1, (hmem q hq).2⟩⟩
    · rw [if_neg h1] at h
      by_cases h2 : idMem r tbl = true
      · rw [if_pos h2] at h; cases h
      · rw [if_neg h2] at h
        obtain ⟨new, hnew, hmem⟩ := ih (tbl ++ [r]) h
        refine ⟨r :: new, by simpa using hnew, ?_⟩
        intro q hq
        rcases List.mem_cons.mp hq with rfl | hq
        · exact ⟨List.mem_cons_self _ _, Bool.not_eq_true _ ▸ h1⟩
        · have hq2 := (hmem q hq).2
          rw [imdbMem_append] at hq2
          refine ⟨List.mem_cons_of_mem _ (hmem q hq).1, ?_⟩
          rcases Bool.or_eq_false_iff.mp hq2 with ⟨hl, _⟩
          exact hl

theorem insertMoviesFold_conflict_after (rows : List MovieRow)
    (tbl tbl2 : List MovieRow)
    (hids : ∀ r ∈ rows, r.imdb_id.isSome = true)
    (h : insertMoviesFold tbl rows = some tbl2) :
    ∀ r ∈ rows, imdbMem r tbl2 = true := by
  induction rows generalizing tbl with
  | nil => intro r hr; cases hr
  | cons r rs ih =>
    simp only [insertMoviesFold] at h
    intro q hq
    by_cases h1 : imdbMem r tbl = true
    · rw [if_pos h1] at h
      rcases List.mem_cons.mp hq with rfl | hq2
      · obtain ⟨new, rfl, -⟩ := insertMoviesFold_append rs tbl tbl2 h
        rw [imdbMem_append, h1, Bool.true_or]
      · exact ih tbl (fun p hp => hids p (List.mem_cons_of_mem _ hp)) h q hq2
    · rw [if_neg h1] at h
      by_cases h2 : idMem r tbl = true
      · rw [if_pos h2] at h; cases h
      · rw [if_neg h2] at h
        rcases List.mem_cons.mp hq with rfl | hq2
        · obtain ⟨new, rfl, -⟩ := insertMoviesFold_append rs (tbl ++ [q]) tbl2 h
          obtain ⟨s, hs⟩ := Option.isSome_iff_exists.mp
            (hids q (List.mem_cons_self _ _))
          rw [List.append_assoc, imdbMem_append]
          have : imdbMem q ([q] ++ new) = true := by
            simp [imdbMem, imdbConflict, hs]
          rw [this, Bool.or_true]
        · exact ih (tbl ++ [r])
            (fun p hp => hids p (List.mem_cons_of_mem _ hp)) h q hq2

theorem insertMoviesFold_skip_all (rows : List MovieRow)
    (tbl : List MovieRow) (h : ∀ r ∈ rows, imdbMem r tbl = true) :
    insertMoviesFold tbl rows = some tbl := by
  induction rows with
  | nil => rfl
  | cons r rs ih =>
    simp only [insertMoviesFold, if_pos (h r (List.mem_cons_self _ _))]
    exact ih fun q hq => h q (List.mem_cons_of_mem _ hq)

theorem refHas_of_rows_append (r1 r2 : List (Nat × String)) (n m : Nat)
    (v : String) (h : refHas ⟨r1, n⟩ v = true) :
    refHas ⟨r1 ++ r2, m⟩ v = true := by
  simp only [refHas, List.any_append]
  simp only [refHas] at h
  rw [h, Bool.true_or]

theorem insertRefFold_rows (vs : List String) (t : RefTable) :
    (insertRefFold t vs).1.rows = t.rows ++ (insertRefFold t vs).2 := by
  induction vs generalizing t with
  | nil => simp [insertRefFold]
  | cons v vs ih =>
    simp only [insertRefFold]
    by_cases h : refHas t v = true
    · rw [if_pos h]; exact ih t
    · rw [if_neg h]
      simp only []
      rw [ih ⟨t.rows ++ [(t.nextId, v)], t.nextId + 1⟩]
      simp

theorem refHas_insertRefFold_mono (vs : List String) (t : RefTable)
    (v : String) (h : refHas t v = true) :
    refHas (insertRefFold t vs).1 v = true := by
  have hr := insertRefFold_rows vs t
  unfold refHas at h ⊢
  rw [hr, List.any_append, h, Bool.true_or]

theorem insertRefFold_has (vs : List String) (t : RefTable) (v : String)
    (hv : v ∈ vs) : refHas (insertRefFold t vs).1 v = true := by
  induction vs generalizing t with
  | nil => cases hv
  | cons u us ih =>
    simp only [insertRefFold]
    by_cases h : refHas t u = true
    · rw [if_pos h]
      rcases List.mem_cons.mp hv with rfl | hv2
      · exact refHas_insertRefFold_mono us t v h
      · exact ih t hv2
    · rw [if_neg h]
      simp only []
      rcases List.mem_cons.mp hv with rfl | hv2
      · refine refHas_insertRefFold_mono us _ v ?_
        simp [refHas, List.any_append]
      · exact ih ⟨t.rows ++ [(t.nextId, u)], t.nextId + 1⟩ hv2

theorem seed_lookup_isSome (t : RefTable) (v : String) :
    ((seedMapping t).lookup v).isSome = refHas t v := by
  rcases t with ⟨rows, n⟩
  induction rows with
  | nil => simp [seedMapping, refHas, List.lookup]
  | cons p ps ih =>
    rcases p with ⟨a, b⟩
    simp only [seedMapping, refHas, List.map_cons, List.lookup, List.any_cons]
    by_cases h : v = b
    · subst h
      simp
    · have h1 : (v == b) = false := by simpa using h
      have h2 : (b == v) = false := by simpa using fun hh => h hh.symm
      simp only [h1, h2, Bool.false_or]
      simpa [seedMapping, refHas] using ih

theorem seed_lookup_mem (t : RefTable) (v : String) (i : Nat)
    (h : (seedMapping t).lookup v = some i) : (i, v) ∈ t.rows := by
  rcases t with ⟨rows, n⟩
  induction rows with
  | nil => simp [seedMapping, List.lookup] at h
  | cons p ps ih =>
    rcases p with ⟨a, b⟩
    simp only [seedMapping, List.map_cons, List.lookup] at h
    by_cases hb : (v == b) = true
    · simp only [hb] at h
      cases h
      have : v = b := by simpa using hb
      subst this
      exact List.mem_cons_self _ _
    · have hb2 : (v == b) = false := by simpa using hb
      simp only [hb2] at h
      exact List.mem_cons_of_mem _ (ih h)

theorem insertRefFold_lookup (vs : List String) (t : RefTable) (v : String)
    (hnot : refHas t v = false) (hv : v ∈ vs) :
    ∃ i, (((insertRefFold t vs).2.map fun p => (p.2, p.1)).lookup v = some i) ∧
      (i, v) ∈ (insertRefFold t vs).1.rows := by
  induction vs generalizing t with
  | nil => cases hv
  | cons u us ih =>
    simp only [insertRefFold]
    by_cases h : refHas t u = true
    · rw [if_pos h]
      rcases List.mem_cons.mp hv with rfl | hv2
      · rw [hnot] at h; cases h
      · exact ih t hnot hv2
    · rw [if_neg h]
      by_cases huv : v = u
      · subst huv
        refine ⟨t.nextId, ?_, ?_⟩
        · simp [List.lookup]
        · rw [insertRefFold_rows]
          simp
      · rcases List.mem_cons.mp hv with rfl | hv2
        · exact absurd rfl huv
        · have hnot2 : refHas ⟨t.rows ++ [(t.nextId, u)], t.nextId + 1⟩ v = false := by
            have huv2 : (u == v) = false := by
              simpa using fun hh => huv hh.symm
            simp only [refHas, List.any_append] at hnot ⊢
            rw [hnot]
            simp [huv2]
          obtain ⟨i, hlk, hmem⟩ := ih _ hnot2 hv2
          refine ⟨i, ?_, hmem⟩
          have hvu : (v == u) = false := by simpa using huv
          simpa [List.lookup, hvu] using hlk

theorem paginate_nil (ps : Nat) : paginate ps [] = [] := rfl

theorem paginate_eq_single (ps : Nat) (l : List String) (hne : l ≠ [])
    (h : l.length ≤ ps) : paginate ps l = [l] := by
  rcases l with - | ⟨x, xs⟩
  · cases hne rfl
  · show paginateAux ps (x :: xs).length (x :: xs) = [x :: xs]
    simp only [List.length_cons, paginateAux]
    rw [List.take_of_length_le h, List.drop_eq_nil_of_le h]
    rcases hxs : xs.length with - | n
    · rfl
    · rfl

/-- When the new values fit in a single `execute_values` page, the paged
insert coincides with the plain sequential insert (and `fetchall` sees
every inserted row). -/
theorem batch_insert_data_single_page (t : RefTable) (data : List String)
    (bs : Nat) (h : (newValuesOf t data).length ≤ bs) :
    batch_insert_data t data .ok bs =
      ((insertRefFold t (newValuesOf t data)).1,
        seedMapping t ++
          (insertRefFold t (newValuesOf t data)).2.map fun p => (p.2, p.1)) := by
  by_cases hne : newValuesOf t data = []
  · simp only [batch_insert_data, hne, paginate_nil]
    rfl
  · simp only [batch_insert_data,
      paginate_eq_single bs (newValuesOf t data) hne h]
    rfl

/-- When every input value is already mapped, the resolver leaves the
table unchanged and returns the seeded mapping. -/
theorem batch_insert_data_no_new (t : RefTable) (data : List String)
    (bs : Nat) (h : newValuesOf t data = []) :
    batch_insert_data t data .ok bs = (t, seedMapping t) := by
  simp only [batch_insert_data, h, paginate_nil]
  show (t, seedMapping t ++ []) = (t, seedMapping t)
  rw [List.append_nil]

theorem newValuesOf_empty_table (n : Nat) (data : List String) :
    newValuesOf ⟨[], n⟩ data = data := by
  refine List.filter_eq_self.mpr fun v hv => ?_
  rfl

theorem batch_insert_data_ok_mem (t : RefTable) (data : List String)
    (bs : Nat) (hbs : (newValuesOf t data).length ≤ bs)
    (v : String) (hv : v ∈ data) :
    ∃ i, ((batch_insert_data t data .ok bs).2.lookup v = some i) ∧
      (i, v) ∈ (batch_insert_data t data .ok bs).1.rows := by
  rw [batch_insert_data_single_page t data bs hbs]
  rcases hm : (seedMapping t).lookup v with - | i
  · have hvnew : v ∈ newValuesOf t data := by
      simp [newValuesOf, List.mem_filter, hv, hm]
    have hnot : refHas t v = false := by
      rw [← seed_lookup_isSome, hm]; rfl
    obtain ⟨i, hlk, hmem⟩ := insertRefFold_lookup _ t v hnot hvnew
    refine ⟨i, ?_, hmem⟩
    rw [lookup_append, hm]
    exact hlk
  · refine ⟨i, ?_, ?_⟩
    · rw [lookup_append, hm]
    · rw [insertRefFold_rows]
      exact List.mem_append_left _ (seed_lookup_mem t v i hm)

theorem batch_insert_data_idem (t : RefTable) (data : List String)
    (bs bs2 : Nat) (hbs : (newValuesOf t data).length ≤ bs) :
    batch_insert_data (batch_insert_data t data .ok bs).1 data .ok bs2 =
      batch_insert_data t data .ok bs := by
  rw [batch_insert_data_single_page t data bs hbs]
  have hseed : seedMapping (insertRefFold t (newValuesOf t data)).1 =
      seedMapping t ++
        (insertRefFold t (newValuesOf t data)).2.map fun p => (p.2, p.1) := by
    unfold seedMapping
    rw [insertRefFold_rows, List.map_append]
  have hall : ∀ v ∈ data,
      ((seedMapping
          (insertRefFold t (newValuesOf t data)).1).lookup v).isSome = true := by
    intro v hv
    rw [seed_lookup_isSome]
    rcases hm : (seedMapping t).lookup v with - | i
    · refine insertRefFold_has _ t v ?_
      simp [newValuesOf, List.mem_filter, hv, hm]
    · refine refHas_insertRefFold_mono _ t v ?_
      rw [← seed_lookup_isSome, hm]; rfl
  have hnew : newValuesOf (insertRefFold t (newValuesOf t data)).1 data = [] := by
    rw [newValuesOf, List.filter_eq_nil_iff]
    intro v hv
    simp [Option.isNone_iff_eq_none, Option.isSome_iff_ne_none.mp (hall v hv)]
  rw [batch_insert_data_no_new _ _ bs2 hnew, hseed]

theorem preparePass_skip_inadmissible (recs : List MovieRecord)
    (acc : Prepared) :
    recs.foldl prepareStep acc =
      (recs.filter fun m => admissible m).foldl prepareStep acc := by
  induction recs generalizing acc with
  | nil => rfl
  | cons m ms ih =>
    by_cases h : admissible m = true
    · simp only [List.foldl_cons, List.filter_cons, h, if_true]
      exact ih (prepareStep acc m)
    · have h2 : admissible m = false := by simpa using h
      have hstep : prepareStep acc m = acc := by
        simp [prepareStep, h2]
      simp only [List.foldl_cons, List.filter_cons, h2, hstep]
      simpa using ih acc

theorem foldl_prepareStep_field_mem
    (P : Prepared → List String) (f : MovieRecord → Option String)
    (hstep : ∀ acc m, admissible m = true →
      P (prepareStep acc m) = setUpdate (P acc) (mentions (f m)))
    (hskip : ∀ acc m, admissible m = false → P (prepareStep acc m) = P acc)
    (recs : List MovieRecord) (acc : Prepared) (v : String) :
    v ∈ P (recs.foldl prepareStep acc) ↔
      v ∈ P acc ∨ ∃ m ∈ recs, admissible m = true ∧ v ∈ mentions (f m) := by
  induction recs generalizing acc with
  | nil => simp
  | cons m ms ih =>
    simp only [List.foldl_cons]
    rw [ih (prepareStep acc m)]
    by_cases h : admissible m = true
    · rw [hstep acc m h, mem_setUpdate]
      constructor
      · rintro ((hs | hm) | ⟨m2, hm2, ha2, hv2⟩)
        · exact Or.inl hs
        · exact Or.inr ⟨m, List.mem_cons_self _ _, h, hm⟩
        · exact Or.inr ⟨m2, List.mem_cons_of_mem _ hm2, ha2, hv2⟩
      · rintro (hs | ⟨m2, hm2, ha2, hv2⟩)
        · exact Or.inl (Or.inl hs)
        · rcases List.mem_cons.mp hm2 with rfl | hm3
          · exact Or.inl (Or.inr hv2)
          · exact Or.inr ⟨m2, hm3, ha2, hv2⟩
    · have h2 : admissible m = false := by simpa using h
      rw [hskip acc m h2]
      constructor
      · rintro (hs | ⟨m2, hm2, ha2, hv2⟩)
        · exact Or.inl hs
        · exact Or.inr ⟨m2, List.mem_cons_of_mem _ hm2, ha2, hv2⟩
      · rintro (hs | ⟨m2, hm2, ha2, hv2⟩)
        · exact Or.inl hs
        · rcases List.mem_cons.mp hm2 with rfl | hm3
          · rw [h2] at ha2; cases ha2
          · exact Or.inr ⟨m2, hm3, ha2, hv2⟩

theorem mem_preparePass_genres (recs : List MovieRecord) (v : String) :
    v ∈ (preparePass recs).genres ↔
      ∃ m ∈ recs, admissible m = true ∧ v ∈ mentions m.genres := by
  have := foldl_prepareStep_field_mem (·.genres) (·.genres)
    (fun acc m h => by simp [prepareStep, h])
    (fun acc m h => by simp [prepareStep, h]) recs emptyPrepared v
  simpa [preparePass, emptyPrepared] using this

theorem mem_preparePass_companies (recs : List MovieRecord) (v : String) :
    v ∈ (preparePass recs).companies ↔
      ∃ m ∈ recs, admissible m = true ∧ v ∈ mentions m.production_companies := by
  have := foldl_prepareStep_field_mem (·.companies) (·.production_companies)
    (fun acc m h => by simp [prepareStep, h])
    (fun acc m h => by simp [prepareStep, h]) recs emptyPrepared v
  simpa [preparePass, emptyPrepared] using this

theorem mem_preparePass_countries (recs : List MovieRecord) (v : String) :
    v ∈ (preparePass recs).countries ↔
      ∃ m ∈ recs, admissible m = true ∧ v ∈ mentions m.production_countries := by
  have := foldl_prepareStep_field_mem (·.countries) (·.production_countries)
    (fun acc m h => by simp [prepareStep, h])
    (fun acc m h => by simp [prepareStep, h]) recs emptyPrepared v
  simpa [preparePass, emptyPrepared] using this

theorem mem_preparePass_languages (recs : List MovieRecord) (v : String) :
    v ∈ (preparePass recs).languages ↔
      ∃ m ∈ recs, admissible m = true ∧ v ∈ mentions m.spoken_languages := by
  have := foldl_prepareStep_field_mem (·.languages) (·.spoken_languages)
    (fun acc m h => by simp [prepareStep, h])
    (fun acc m h => by simp [prepareStep, h]) recs emptyPrepared v
  simpa [preparePass, emptyPrepared] using this

theorem mem_preparePass_keywords (recs : List MovieRecord) (v : String) :
    v ∈ (preparePass recs).keywords ↔
      ∃ m ∈ recs, admissible m = true ∧ v ∈ mentions m.keywords := by
  have := foldl_prepareStep_field_mem (·.keywords) (·.keywords)
    (fun acc m h => by simp [prepareStep, h])
    (fun acc m h => by simp [prepareStep, h]) recs emptyPrepared v
  simpa [preparePass, emptyPrepared] using this

theorem foldl_prepareStep_movies_src (recs : List MovieRecord)
    (acc : Prepared) (r : MovieRow)
    (hr : r ∈ (recs.foldl prepareStep acc).movies) :
    r ∈ acc.movies ∨ ∃ m ∈ recs, admissible m = true ∧ r = toMovieRow m := by
  induction recs generalizing acc with
  | nil => exact Or.inl hr
  | cons m ms ih =>
    simp only [List.foldl_cons] at hr
    rcases ih (prepareStep acc m) hr with hacc | ⟨m2, hm2, ha2, hr2⟩
    · by_cases h : admissible m = true
      · simp only [prepareStep, h, if_true, List.mem_append,
          List.mem_singleton] at hacc
        rcases hacc with hacc | rfl
        · exact Or.inl hacc
        · exact Or.inr ⟨m, List.mem_cons_self _ _, h, rfl⟩
      · have h2 : admissible m = false := by simpa using h
        simp only [prepareStep, h2] at hacc
        simp only [Bool.false_eq_true, if_false] at hacc
        exact Or.inl hacc
    · exact Or.inr ⟨m2, List.mem_cons_of_mem _ hm2, ha2, hr2⟩

theorem preparePass_movies_src (recs : List MovieRecord) (r : MovieRow)
    (hr : r ∈ (preparePass recs).movies) :
    ∃ m ∈ recs, admissible m = true ∧ r = toMovieRow m := by
  rcases foldl_prepareStep_movies_src recs emptyPrepared r hr with h | h
  · cases h
  · exact h

theorem imdb_isSome_of_not_falsy (o : Option String)
    (h : falsyStr o = false) : o.isSome = true := by
  cases o with
  | none => cases h
  | some s => rfl

theorem preparePass_movies_imdb (recs : List MovieRecord) (r : MovieRow)
    (hr : r ∈ (preparePass recs).movies) : r.imdb_id.isSome = true := by
  obtain ⟨m, -, ha, rfl⟩ := preparePass_movies_src recs r hr
  simp only [admissible, Bool.and_eq_true, Bool.not_eq_true'] at ha
  exact imdb_isSome_of_not_falsy _ ha.1.2

theorem mem_foldl_append_build (recs : List MovieRecord)
    (g : MovieRecord → List (Nat × Nat)) (a : List (Nat × Nat))
    (e : Nat × Nat) :
    e ∈ recs.foldl (fun acc m => acc ++ g m) a ↔
      e ∈ a ∨ ∃ m ∈ recs, e ∈ g m := by
  induction recs generalizing a with
  | nil => simp
  | cons m ms ih =>
    simp only [List.foldl_cons]
    rw [ih (a ++ g m)]
    simp only [List.mem_append]
    constructor
    · rintro ((ha | hg) | ⟨m2, hm2, he2⟩)
      · exact Or.inl ha
      · exact Or.inr ⟨m, List.mem_cons_self _ _, hg⟩
      · exact Or.inr ⟨m2, List.mem_cons_of_mem _ hm2, he2⟩
    · rintro (ha | ⟨m2, hm2, he2⟩)
      · exact Or.inl (Or.inl ha)
      · rcases List.mem_cons.mp hm2 with rfl | hm3
        · exact Or.inl (Or.inr he2)
        · exact Or.inr ⟨m2, hm3, he2⟩

theorem mem_buildRels (recs : List MovieRecord)
    (f : MovieRecord → Option String) (mapping : List (String × Nat))
    (e : Nat × Nat) :
    e ∈ buildRels recs f mapping ↔
      ∃ m ∈ recs, e ∈ buildRelsRecord mapping (f m) m.id := by
  unfold buildRels
  rw [mem_foldl_append_build]
  simp

theorem mem_buildRelsRecord (mapping : List (String × Nat))
    (field : Option String) (mid : Nat) (e : Nat × Nat) :
    e ∈ buildRelsRecord mapping field mid ↔
      ∃ g ∈ mentions field, mapping.lookup g = some e.2 ∧ e.1 = mid := by
  unfold buildRelsRecord
  rw [List.mem_filterMap]
  constructor
  · rintro ⟨g, hg, hsome⟩
    rcases hlk : mapping.lookup g with - | i
    · rw [hlk] at hsome; cases hsome
    · rw [hlk] at hsome
      simp only [Option.map_some'] at hsome
      cases hsome
      exact ⟨g, hg, hlk, rfl⟩
  · rintro ⟨g, hg, hlk, he⟩
    refine ⟨g, hg, ?_⟩
    rw [hlk]
    simp only [Option.map_some']
    rcases e with ⟨e1, e2⟩
    simp only at he
    rw [he]

theorem batch_insert_relationships_nil_valid (tbl rels : List (Nat × Nat))
    (fail : Bool) :
    batch_insert_relationships tbl rels [] fail = tbl := by
  unfold batch_insert_relationships
  by_cases h : fail = true
  · rw [if_pos h]
  · rw [if_neg h]
    have hf : (rels.filter fun r => decide (r.1 ∈ ([] : List Nat))) = [] := by
      simp
    rw [hf, List.foldl_nil]

theorem joins_unchanged_of_valid_nil (db : DB) (recs : List MovieRecord)
    (fl : FailFlags) (bs : Nat)
    (h : (batch_insert_movies db.movies (preparePass recs).movies
        fl.movies).2 = []) :
    (batch_import_movies db recs fl bs).movieGenres = db.movieGenres ∧
    (batch_import_movies db recs fl bs).movieCompanies = db.movieCompanies ∧
    (batch_import_movies db recs fl bs).movieCountries = db.movieCountries ∧
    (batch_import_movies db recs fl bs).movieLanguages = db.movieLanguages ∧
    (batch_import_movies db recs fl bs).movieKeywords = db.movieKeywords := by
  dsimp only [batch_import_movies]
  rw [h]
  exact ⟨batch_insert_relationships_nil_valid _ _ _,
    batch_insert_relationships_nil_valid _ _ _,
    batch_insert_relationships_nil_valid _ _ _,
    batch_insert_relationships_nil_valid _ _ _,
    batch_insert_relationships_nil_valid _ _ _⟩

theorem batch_insert_movies_idem (rows : List MovieRow)
    (hids : ∀ r ∈ rows, r.imdb_id.isSome = true) :
    batch_insert_movies (batch_insert_movies [] rows false).1 rows false =
      batch_insert_movies [] rows false := by
  rcases h : insertMoviesFold [] rows with - | tbl2
  · simp [batch_insert_movies, h]
  · have hskip : insertMoviesFold tbl2 rows = some tbl2 :=
      insertMoviesFold_skip_all rows tbl2
        (insertMoviesFold_conflict_after rows [] tbl2 hids h)
    simp [batch_insert_movies, h, hskip]

theorem batch_insert_relationships_idem (rels : List (Nat × Nat))
    (valid : List Nat) :
    batch_insert_relationships
        (batch_insert_relationships [] rels valid false) rels valid false =
      batch_insert_relationships [] rels valid false := by
  unfold batch_insert_relationships
  simp only [Bool.false_eq_true, if_false]
  exact foldl_pairInsert_of_subset _ _
    (fun e he => mem_foldl_pairInsert _ _ _ he)

/-! ### The claims -/

/-- Claim C2 (failing input): when the new values span more than one
`execute_values` page, `cursor.fetchall()` (line 75) only returns the
last page's `RETURNING` rows, so earlier pages' values are persisted but
missing from the returned mapping.  With batch size 1 and the fresh
values `["A", "B"]` against an empty table, `"A"` is persisted as row
`(1, "A")` yet absent from the mapping, while `"B"` is mapped.  (This
contradicts the resolver's stated contract; the slip is calling
`execute_values` without `fetch=True`.  With all new values on a single
page the contract does hold: see `batch_insert_data_ok_mem`.) -/
theorem resolver_page_loss :
    ((batch_insert_data ⟨[], 1⟩ ["A", "B"] .ok 1).2.lookup "A" = none) ∧
    (1, "A") ∈ (batch_insert_data ⟨[], 1⟩ ["A", "B"] .ok 1).1.rows ∧
    ((batch_insert_data ⟨[], 1⟩ ["A", "B"] .ok 1).2.lookup "B" = some 2) := by
  decide

/-- Claim C3: whenever the movie upsert returns an empty valid-movie-id
set, no relationship edge is persisted in any of the five join tables
during that run. -/
theorem movie_gated_linking (db : DB) (recs : List MovieRecord)
    (fl : FailFlags) (bs : Nat)
    (h : (batch_insert_movies db.movies (preparePass recs).movies
        fl.movies).2 = []) :
    (batch_import_movies db recs fl bs).movieGenres = db.movieGenres ∧
    (batch_import_movies db recs fl bs).movieCompanies = db.movieCompanies ∧
    (batch_import_movies db recs fl bs).movieCountries = db.movieCountries ∧
    (batch_import_movies db recs fl bs).movieLanguages = db.movieLanguages ∧
    (batch_import_movies db recs fl bs).movieKeywords = db.movieKeywords :=
  joins_unchanged_of_valid_nil db recs fl bs h

/-- Witness for C3: a run whose movie bulk insert fails (so the valid set
is empty) on a record with non-empty entity mentions persists no edges. -/
theorem movie_gated_linking_witness :
    (batch_import_movies emptyDB [sampleRecord] failMoviesFlags
        defaultBatchSize).movieGenres = emptyDB.movieGenres ∧
    (batch_import_movies emptyDB [sampleRecord] failMoviesFlags
        defaultBatchSize).movieCompanies = emptyDB.movieCompanies ∧
    (batch_import_movies emptyDB [sampleRecord] failMoviesFlags
        defaultBatchSize).movieCountries = emptyDB.movieCountries ∧
    (batch_import_movies emptyDB [sampleRecord] failMoviesFlags
        defaultBatchSize).movieLanguages = emptyDB.movieLanguages ∧
    (batch_import_movies emptyDB [sampleRecord] failMoviesFlags
        defaultBatchSize).movieKeywords = emptyDB.movieKeywords :=
  movie_gated_linking emptyDB [sampleRecord] failMoviesFlags
    defaultBatchSize (by decide)

/-- Claim C4: a record with missing title, external reference code or
release date is excluded by the admissibility gate: every tuple handed to
the movie upsert has all three present, and every row of the movie table
after a run is either an old row or one of those tuples. -/
theorem inadmissible_never_persisted (db : DB) (recs : List MovieRecord)
    (fl : FailFlags) (bs : Nat) :
    (∀ r ∈ (preparePass recs).movies,
        falsyStr r.title = false ∧ falsyStr r.imdb_id = false ∧
          falsyDate r.release_date = false) ∧
    (∀ r ∈ (batch_import_movies db recs fl bs).movies,
        r ∈ db.movies ∨ r ∈ (preparePass recs).movies) := by
  constructor
  · intro r hr
    obtain ⟨m, -, ha, rfl⟩ := preparePass_movies_src recs r hr
    simp only [admissible, Bool.and_eq_true, Bool.not_eq_true'] at ha
    exact ⟨ha.1.1, ha.1.2, ha.2⟩
  · intro r hr
    dsimp only [batch_import_movies] at hr
    unfold batch_insert_movies at hr
    by_cases hf : fl.movies = true
    · rw [if_pos hf] at hr
      exact Or.inl hr
    · rw [if_neg hf] at hr
      rcases hins : insertMoviesFold db.movies (preparePass recs).movies
        with - | tbl2
      · rw [hins] at hr
        exact Or.inl hr
      · rw [hins] at hr
        simp only at hr
        obtain ⟨new, heq, hnew⟩ := insertMoviesFold_append _ _ _ hins
        rw [heq] at hr
        rcases List.mem_append.mp hr with h | h
        · exact Or.inl h
        · exact Or.inr (hnew r h).1

/-- Witness for C4: the admissible sample record's tuple has all three
critical fields present, and the movie table after the run only holds old
or prepared rows. -/
theorem inadmissible_never_persisted_witness :
    (falsyStr sampleRow.title = false ∧ falsyStr sampleRow.imdb_id = false ∧
      falsyDate sampleRow.release_date = false) ∧
    (sampleRow ∈ emptyDB.movies ∨
      sampleRow ∈ (preparePass [sampleRecord]).movies) :=
  ⟨(inadmissible_never_persisted emptyDB [sampleRecord] okFlags
        defaultBatchSize).1 sampleRow (by decide),
    (inadmissible_never_persisted emptyDB [sampleRecord] okFlags
        defaultBatchSize).2 sampleRow (by decide)⟩

/-- Claim C5: on success the movie upsert returns the ids of a fresh read
of the whole movie table, so pre-existing rows stay in the table and their
ids are in the returned set, while every newly inserted row had no
`imdb_id` conflict with the prior table — a re-run over an existing
reference code inserts nothing new for it yet still returns its id. -/
theorem movie_upsert_fresh_read (tbl rows tbl2 : List MovieRow)
    (h : insertMoviesFold tbl rows = some tbl2) :
    batch_insert_movies tbl rows false = (tbl2, tbl2.map fun r => r.id) ∧
    (∀ q ∈ tbl, q ∈ tbl2 ∧ q.id ∈ tbl2.map fun r => r.id) ∧
    ∃ new, tbl2 = tbl ++ new ∧ ∀ r ∈ new, imdbMem r tbl = false := by
  have h1 : batch_insert_movies tbl rows false =
      (tbl2, tbl2.map fun r => r.id) := by
    simp [batch_insert_movies, h]
  obtain ⟨new, heq, hnew⟩ := insertMoviesFold_append rows tbl tbl2 h
  subst heq
  refine ⟨h1, ?_, new, rfl, fun r hr => (hnew r hr).2⟩
  intro q hq
  exact ⟨List.mem_append_left _ hq,
    List.mem_map.mpr ⟨q, List.mem_append_left _ hq, rfl⟩⟩

/-- Witness for C5: upserting the sample row into a table that already
contains it inserts zero rows and still returns its id. -/
theorem movie_upsert_fresh_read_witness :
    batch_insert_movies [sampleRow] [sampleRow] false =
      ([sampleRow], [sampleRow].map fun r => r.id) ∧
    (∀ q ∈ [sampleRow], q ∈ [sampleRow] ∧
      q.id ∈ [sampleRow].map fun r => r.id) ∧
    ∃ new, [sampleRow] = [sampleRow] ++ new ∧
      ∀ r ∈ new, imdbMem r [sampleRow] = false :=
  movie_upsert_fresh_read [sampleRow] [sampleRow] [sampleRow] (by decide)

/-- Claim C6: any failure of the movie bulk insert — an external storage
failure or the uniqueness error raised inside the statement — rolls the
whole batch back (the movie table is unchanged) and returns the empty id
set, so no relationship edge of that run is persisted in any join table. -/
theorem movie_upsert_failure_total_rollback (db : DB)
    (recs : List MovieRecord) (fl : FailFlags) (bs : Nat)
    (h : fl.movies = true ∨
      insertMoviesFold db.movies (preparePass recs).movies = none) :
    batch_insert_movies db.movies (preparePass recs).movies fl.movies =
      (db.movies, []) ∧
    (batch_import_movies db recs fl bs).movies = db.movies ∧
    ((batch_import_movies db recs fl bs).movieGenres = db.movieGenres ∧
      (batch_import_movies db recs fl bs).movieCompanies =
        db.movieCompanies ∧
      (batch_import_movies db recs fl bs).movieCountries =
        db.movieCountries ∧
      (batch_import_movies db recs fl bs).movieLanguages =
        db.movieLanguages ∧
      (batch_import_movies db recs fl bs).movieKeywords =
        db.movieKeywords) := by
  have hbm : batch_insert_movies db.movies (preparePass recs).movies
      fl.movies = (db.movies, []) := by
    rcases h with h | h
    · simp [batch_insert_movies, h]
    · by_cases hf : fl.movies = true
      · simp [batch_insert_movies, hf]
      · simp [batch_insert_movies, hf, h]
  refine ⟨hbm, ?_, joins_unchanged_of_valid_nil db recs fl bs (by rw [hbm])⟩
  dsimp only [batch_import_movies]
  rw [hbm]

/-- Witness for C6: a failing movie insert on the sample input leaves the
store's movie table and join tables untouched and yields no valid ids. -/
theorem movie_upsert_failure_total_rollback_witness :
    batch_insert_movies emptyDB.movies (preparePass [sampleRecord]).movies
      failMoviesFlags.movies = (emptyDB.movies, []) ∧
    (batch_import_movies emptyDB [sampleRecord] failMoviesFlags
      defaultBatchSize).movies = emptyDB.movies ∧
    ((batch_import_movies emptyDB [sampleRecord] failMoviesFlags
        defaultBatchSize).movieGenres = emptyDB.movieGenres ∧
      (batch_import_movies emptyDB [sampleRecord] failMoviesFlags
        defaultBatchSize).movieCompanies = emptyDB.movieCompanies ∧
      (batch_import_movies emptyDB [sampleRecord] failMoviesFlags
        defaultBatchSize).movieCountries = emptyDB.movieCountries ∧
      (batch_import_movies emptyDB [sampleRecord] failMoviesFlags
        defaultBatchSize).movieLanguages = emptyDB.movieLanguages ∧
      (batch_import_movies emptyDB [sampleRecord] failMoviesFlags
        defaultBatchSize).movieKeywords = emptyDB.movieKeywords) :=
  movie_upsert_failure_total_rollback emptyDB [sampleRecord]
    failMoviesFlags defaultBatchSize (Or.inl (by decide))

/-- Claim C7: a failure during a category's read or insert is absorbed
inside the resolver — it returns (rather than raises) with the table
rolled back and the mapping reflecting only what succeeded before the
failure (nothing for a read failure, the seeded pre-read mapping for an
insert failure) — and a failure in one category changes neither the table
nor the join table of a sibling category: each category's results depend
only on its own mode (and, for the join, the movie flag and its own
relationship flag). -/
theorem category_failure_isolated :
    (∀ (t : RefTable) (data : List String) (bs : Nat),
        batch_insert_data t data .atRead bs = (t, []) ∧
        batch_insert_data t data .atInsert bs = (t, seedMapping t)) ∧
    (∀ (db : DB) (recs : List MovieRecord) (fl1 fl2 : FailFlags) (bs : Nat),
        fl1.movies = fl2.movies →
        ((fl1.genres = fl2.genres → fl1.relGenres = fl2.relGenres →
          (batch_import_movies db recs fl1 bs).genres =
            (batch_import_movies db recs fl2 bs).genres ∧
          (batch_import_movies db recs fl1 bs).movieGenres =
            (batch_import_movies db recs fl2 bs).movieGenres) ∧
        (fl1.companies = fl2.companies →
          fl1.relCompanies = fl2.relCompanies →
          (batch_import_movies db recs fl1 bs).companies =
            (batch_import_movies db recs fl2 bs).companies ∧
          (batch_import_movies db recs fl1 bs).movieCompanies =
            (batch_import_movies db recs fl2 bs).movieCompanies) ∧
        (fl1.countries = fl2.countries →
          fl1.relCountries = fl2.relCountries →
          (batch_import_movies db recs fl1 bs).countries =
            (batch_import_movies db recs fl2 bs).countries ∧
          (batch_import_movies db recs fl1 bs).movieCountries =
            (batch_import_movies db recs fl2 bs).movieCountries) ∧
        (fl1.languages = fl2.languages →
          fl1.relLanguages = fl2.relLanguages →
          (batch_import_movies db recs fl1 bs).languages =
            (batch_import_movies db recs fl2 bs).languages ∧
          (batch_import_movies db recs fl1 bs).movieLanguages =
            (batch_import_movies db recs fl2 bs).movieLanguages) ∧
        (fl1.keywords = fl2.keywords →
          fl1.relKeywords = fl2.relKeywords →
          (batch_import_movies db recs fl1 bs).keywords =
            (batch_import_movies db recs fl2 bs).keywords ∧
          (batch_import_movies db recs fl1 bs).movieKeywords =
            (batch_import_movies db recs fl2 bs).movieKeywords))) := by
  constructor
  · intro t data bs
    exact ⟨rfl, rfl⟩
  · intro db recs fl1 fl2 bs hm
    refine ⟨?_, ?_, ?_, ?_, ?_⟩ <;>
      · intro h1 h2
        dsimp only [batch_import_movies]
        rw [hm, h1, h2]
        exact ⟨rfl, rfl⟩

/-- Witness for C7: a run whose companies category fails at read yields
the same genres table and movie-genre join table as the fully successful
run on the same store and input. -/
theorem category_failure_isolated_witness :
    batch_insert_data ⟨[(1, "Action")], 2⟩ ["Drama"] .atRead
        defaultBatchSize = (⟨[(1, "Action")], 2⟩, []) ∧
    ((batch_import_movies seededDB [sampleRecord] okFlags
        defaultBatchSize).genres =
      (batch_import_movies seededDB [sampleRecord] failCompaniesFlags
        defaultBatchSize).genres ∧
    (batch_import_movies seededDB [sampleRecord] okFlags
        defaultBatchSize).movieGenres =
      (batch_import_movies seededDB [sampleRecord] failCompaniesFlags
        defaultBatchSize).movieGenres) :=
  ⟨(category_failure_isolated.1 ⟨[(1, "Action")], 2⟩ ["Drama"]
      defaultBatchSize).1,
    (category_failure_isolated.2 seededDB [sampleRecord] okFlags
      failCompaniesFlags defaultBatchSize rfl).1 rfl rfl⟩

/-- Claim C8 (counterexample): the deduplicator does NOT restrict itself
to non-empty trimmed pieces, and does not process every record: on the
input `[recInadmissible, recTrailing]` the accumulated genre set contains
the empty string (from the trailing delimiter of the admissible record)
and does not contain `"Drama"` (the inadmissible record is skipped before
entity collection). -/
theorem dedup_claim_counterexample :
    "" ∈ (preparePass [recInadmissible, recTrailing]).genres ∧
    "Drama" ∉ (preparePass [recInadmissible, recTrailing]).genres := by
  decide

/-- Claim C8 (amended): for every entity category, a value is accumulated
iff it is a whitespace-trimmed piece — possibly the empty string — of the
present source field of some ADMISSIBLE record; missing fields and
inadmissible records contribute nothing. -/
theorem dedup_adds_trimmed_pieces (recs : List MovieRecord) (v : String) :
    (v ∈ (preparePass recs).genres ↔
      ∃ m ∈ recs, admissible m = true ∧ v ∈ mentions m.genres) ∧
    (v ∈ (preparePass recs).companies ↔
      ∃ m ∈ recs, admissible m = true ∧
        v ∈ mentions m.production_companies) ∧
    (v ∈ (preparePass recs).countries ↔
      ∃ m ∈ recs, admissible m = true ∧
        v ∈ mentions m.production_countries) ∧
    (v ∈ (preparePass recs).languages ↔
      ∃ m ∈ recs, admissible m = true ∧ v ∈ mentions m.spoken_languages) ∧
    (v ∈ (preparePass recs).keywords ↔
      ∃ m ∈ recs, admissible m = true ∧ v ∈ mentions m.keywords) :=
  ⟨mem_preparePass_genres recs v, mem_preparePass_companies recs v,
    mem_preparePass_countries recs v, mem_preparePass_languages recs v,
    mem_preparePass_keywords recs v⟩

/-- Claim C9: every edge built by the relationship pass stems from a
mention whose trimmed value resolved in the category mapping, and a
record none of whose mentions resolve contributes no edge at all — an
unresolved mention is dropped silently, no edge referencing it is
created. -/
theorem dangling_mention_dropped :
    (∀ (recs : List MovieRecord) (f : MovieRecord → Option String)
        (mapping : List (String × Nat)) (e : Nat × Nat),
        e ∈ buildRels recs f mapping →
        ∃ m ∈ recs, e.1 = m.id ∧
          ∃ g ∈ mentions (f m), mapping.lookup g = some e.2) ∧
    (∀ (mapping : List (String × Nat)) (field : Option String) (mid : Nat),
        (∀ g ∈ mentions field, mapping.lookup g = none) →
        buildRelsRecord mapping field mid = []) := by
  constructor
  · intro recs f mapping e he
    obtain ⟨m, hm, he2⟩ := (mem_buildRels recs f mapping e).mp he
    obtain ⟨g, hg, hlk, hid⟩ := (mem_buildRelsRecord mapping (f m) m.id e).mp he2
    exact ⟨m, hm, hid, g, hg, hlk⟩
  · intro mapping field mid h
    unfold buildRelsRecord
    rw [List.filterMap_eq_nil_iff]
    intro g hg
    rw [h g hg]
    rfl

/-- Witness for C9: a concrete genre edge traces back to a resolved
mention, and a record whose only mention is unresolved builds nothing. -/
theorem dangling_mention_dropped_witness :
    (∃ m ∈ [sampleRecord], ((1 : Nat), (5 : Nat)).1 = m.id ∧
      ∃ g ∈ mentions m.genres,
        ([("Action", 5)] : List (String × Nat)).lookup g = some 5) ∧
    buildRelsRecord [("Action", 5)] (some "Horror") 1 = [] :=
  ⟨dangling_mention_dropped.1 [sampleRecord] (fun m => m.genres)
      [("Action", 5)] (1, 5) (by decide),
    dangling_mention_dropped.2 [("Action", 5)] (some "Horror") 1
      (by decide)⟩

/-- Claim C10: an inadmissible record contributes no entity mentions to
the deduplication sets — the whole first pass skips it — yet the
relationship pass iterates every record, so an inadmissible record whose
mention already resolves and whose movie id is already valid in the store
does produce a persisted edge. -/
theorem inadmissible_record_edges :
    (∀ recs : List MovieRecord,
        preparePass recs =
          preparePass (recs.filter fun m => admissible m)) ∧
    admissible recInadmissibleOld = false ∧
    (batch_import_movies seededDB [recInadmissibleOld] okFlags
      defaultBatchSize).movieGenres = [(7, 5)] := by
  refine ⟨fun recs => preparePass_skip_inadmissible recs emptyPrepared,
    by decide, by decide⟩

/-- When every entity category's accumulated value set fits in a single
`execute_values` page, the pipeline IS idempotent against an initially
empty store: running it a second time on the same input changes no
table.  (Auxiliary positive result; the unconditional claim fails, see
`pipeline_not_idempotent`.) -/
theorem pipeline_idempotent_single_page (recs : List MovieRecord)
    (bs : Nat)
    (hg : (preparePass recs).genres.length ≤ bs)
    (hc : (preparePass recs).companies.length ≤ bs)
    (hn : (preparePass recs).countries.length ≤ bs)
    (hl : (preparePass recs).languages.length ≤ bs)
    (hk : (preparePass recs).keywords.length ≤ bs) :
    batch_import_movies (batch_import_movies emptyDB recs okFlags bs)
        recs okFlags bs =
      batch_import_movies emptyDB recs okFlags bs := by
  have hids : ∀ r ∈ (preparePass recs).movies, r.imdb_id.isSome = true :=
    fun r hr => preparePass_movies_imdb recs r hr
  have hA := batch_insert_movies_idem (preparePass recs).movies hids
  have hlen : ∀ data : List String, data.length ≤ bs →
      (newValuesOf ⟨[], 1⟩ data).length ≤ bs := by
    intro data h
    rw [newValuesOf_empty_table]
    exact h
  have hG := batch_insert_data_idem ⟨[], 1⟩ (preparePass recs).genres
    bs bs (hlen _ hg)
  have hC := batch_insert_data_idem ⟨[], 1⟩ (preparePass recs).companies
    bs bs (hlen _ hc)
  have hN := batch_insert_data_idem ⟨[], 1⟩ (preparePass recs).countries
    bs bs (hlen _ hn)
  have hL := batch_insert_data_idem ⟨[], 1⟩ (preparePass recs).languages
    bs bs (hlen _ hl)
  have hK := batch_insert_data_idem ⟨[], 1⟩ (preparePass recs).keywords
    bs bs (hlen _ hk)
  dsimp only [batch_import_movies, emptyDB, okFlags]
  rw [hA, hG, hC, hN, hL, hK]
  simp only [batch_insert_relationships_idem]

/-- Claim C1 (failing input): the pipeline is NOT idempotent when an
entity category's new values span more than one `execute_values` page.
With batch size 1 and two admissible records mentioning `"Action"` and
`"Drama"`, the first run resolves only the last page (`"Drama"`), so it
persists one genre edge; the second run finds the complete mapping by its
pre-read and persists the `"Action"` edge the first run dropped — the
final join-table contents differ between running once and running
twice.  (Root cause: `execute_values` without `fetch=True`, line 71-75;
with single-page categories idempotence holds, see
`pipeline_idempotent_single_page`.) -/
theorem pipeline_not_idempotent :
    (batch_import_movies emptyDB [recGenreA, recGenreB] okFlags
        1).movieGenres = [(2, 2)] ∧
    (batch_import_movies
        (batch_import_movies emptyDB [recGenreA, recGenreB] okFlags 1)
        [recGenreA, recGenreB] okFlags 1).movieGenres = [(2, 2), (1, 1)] ∧
    batch_import_movies
        (batch_import_movies emptyDB [recGenreA, recGenreB] okFlags 1)
        [recGenreA, recGenreB] okFlags 1 ≠
      batch_import_movies emptyDB [recGenreA, recGenreB] okFlags 1 := by
  refine ⟨by decide, by decide, ?_⟩
  intro h
  have h2 := congrArg DB.movieGenres h
  revert h2
  decide

end VizDataPrep
